import Mathlib

/-!
Verification of the recommendation scoring and evaluation engine of the
e-commerce market-intelligence dashboard (`streamlit_app.py`).

The embedding models the three core functions of the source —
`calculate_score`, `get_recommendations`, `calculate_metrics` — over exact
numbers: prices, ratings and budgets are rationals (the source computes with
machine floats), scores live in `ℝ` because the scorer applies `np.log1p`.
DataFrames are modelled as lists of records; the pandas row index of a
product row is carried explicitly as a natural number so that filtering and
`nlargest` keep the original catalog positions, exactly as pandas does.
`Series.mean` on an empty series yields NaN in pandas; here it is modelled
as an `Option`, with `none` standing for NaN. `DataFrame.nlargest` with
`keep='first'` is modelled as a stable descending sort followed by a
truncation, realised as an insertion sort along the linear order
"greater score first, earlier row index first among equal scores".
`calculate_metrics` assigns a new `price_match` column to the survey
DataFrame it was handed (the source has no `.copy()` there), so it is
modelled in state-passing style, returning the updated survey frame next to
the metrics report; `get_recommendations` copies the candidate rows before
attaching scores, so its DataFrame-level wrapper returns the catalog frame
unchanged.
-/

namespace MarketIntel

/-- A row of the survey DataFrame built by `load_survey_data`. -/
structure Customer where
  user_id : String
  name : String
  age : ℕ
  city : String
  preferred_category : String
  expected_price_low : ℚ
  expected_price_high : ℚ
  favorite_keyword : String
  deriving DecidableEq

/-- A row of the products DataFrame built by `fetch_api_products`. -/
structure Product where
  product_id : String
  title : String
  price : ℚ
  category : String
  rating : ℚ
  rating_count : ℕ
  deriving DecidableEq

/-- The survey DataFrame: its customer rows, plus the `price_match` column
that `calculate_metrics` assigns (absent, i.e. `none`, until it does). -/
structure SurveyDF where
  rows : List Customer
  price_match : Option (List Bool)
  deriving DecidableEq

/-- The products DataFrame: its product rows, plus the `score` column that
only copied candidate frames ever receive. -/
structure ProductsDF where
  rows : List Product
  score_col : Option (List ℝ)

/-- The result record of `calculate_metrics`.  `category_coverage` and
`price_accuracy` are pandas `Series.mean` results scaled by 100, hence NaN
(= `none`) on an empty survey; the four precision metrics are guarded by
`if precision_list else 0` in the source and are always numbers. -/
structure MetricsReport where
  category_coverage : Option ℚ
  price_accuracy : Option ℚ
  precision_1_keyword : ℚ
  precision_3_keyword : ℚ
  precision_1_price : ℚ
  precision_3_price : ℚ

/-- Python `a in b` on lowercased strings: substring test after `.lower()`. -/
def containsSub (hay needle : String) : Bool :=
  decide (needle.data <:+: hay.data)

/-- `calculate_score` (source lines 152–158): mid-price of the user's budget,
price distance relative to mid (guarded when `mid_price > 0` fails),
penalty `price_distance * 2`, and `rating * np.log1p(rating_count)` minus
the penalty. -/
noncomputable def calculate_score (price rating : ℚ) (rating_count : ℕ)
    (user_price_low user_price_high : ℚ) : ℝ :=
  let mid_price : ℚ := (user_price_low + user_price_high) / 2
  let price_distance : ℚ := if mid_price > 0 then |price - mid_price| / mid_price else 0
  let price_penalty : ℚ := price_distance * 2
  (rating : ℝ) * Real.log (1 + (rating_count : ℝ)) - (price_penalty : ℝ)

/-- The widening fraction `buffer = 0.2` of `get_recommendations`. -/
def buffer : ℚ := 1/5

/-- A scored candidate row: original catalog row index, the product, and the
value of the `score` column attached to the copied row. -/
abbrev RecRow := ℕ × Product × ℝ

/-- Pandas row labels: pair each row with its position, like the default
`RangeIndex` of the products DataFrame. -/
def enumIdx : ℕ → List Product → List (ℕ × Product)
  | _, [] => []
  | i, p :: ps => (i, p) :: enumIdx (i + 1) ps

/-- The boolean-mask filter of `get_recommendations` (source lines 169–172):
keep the rows whose price lies in the relaxed window
`[expected_price_low * (1 - buffer), expected_price_high * (1 + buffer)]`,
retaining their original index labels. -/
def windowFilter (u : Customer) (rows : List Product) : List (ℕ × Product) :=
  (enumIdx 0 rows).filter fun ip =>
    decide (u.expected_price_low * (1 - buffer) ≤ ip.2.price) &&
    decide (ip.2.price ≤ u.expected_price_high * (1 + buffer))

/-- The candidate pool after the fallback of source lines 174–175: the
price-filtered rows, or a copy of the entire catalog when the filter kept
nothing. -/
def candidatePool (u : Customer) (rows : List Product) : List (ℕ × Product) :=
  if (windowFilter u rows).isEmpty then enumIdx 0 rows else windowFilter u rows

/-- Attaching the `score` column (source lines 177–183): each candidate row
is scored with the customer's original, unbuffered budget bounds. -/
noncomputable def scoreRow (u : Customer) (ip : ℕ × Product) : RecRow :=
  (ip.1, ip.2,
    calculate_score ip.2.price ip.2.rating ip.2.rating_count
      u.expected_price_low u.expected_price_high)

/-- The order realised by `nlargest(·, 'score')` with the default
`keep='first'`: strictly greater score first; among equal scores the row
with the smaller original index first (stable selection). -/
def rankLe (a b : RecRow) : Prop :=
  b.2.2 < a.2.2 ∨ (a.2.2 = b.2.2 ∧ a.1 ≤ b.1)

noncomputable instance : DecidableRel rankLe := fun _ _ =>
  inferInstanceAs (Decidable (_ ∨ _))

instance : IsTotal RecRow rankLe where
  total a b := by
    rcases lt_trichotomy a.2.2 b.2.2 with h | h | h
    · exact Or.inr (Or.inl h)
    · rcases Nat.le_total a.1 b.1 with h' | h'
      · exact Or.inl (Or.inr ⟨h, h'⟩)
      · exact Or.inr (Or.inr ⟨h.symm, h'⟩)
    · exact Or.inl (Or.inl h)

instance : IsTrans RecRow rankLe where
  trans a b c hab hbc := by
    rcases hab with hab | ⟨hab, hab'⟩ <;> rcases hbc with hbc | ⟨hbc, hbc'⟩
    · exact Or.inl (hbc.trans hab)
    · exact Or.inl (hbc ▸ hab)
    · exact Or.inl (lt_of_lt_of_le hbc (le_of_eq hab.symm))
    · exact Or.inr ⟨hab.trans hbc, hab'.trans hbc'⟩

/-- `get_recommendations` (source lines 160–185): early return on an empty
catalog, relaxed-window filter, full-catalog fallback, scoring, and
`nlargest(min(top_n, len(candidates)), 'score')`. -/
noncomputable def get_recommendations (u : Customer) (rows : List Product)
    (top_n : ℤ) : List RecRow :=
  if rows.isEmpty then []
  else
    (List.insertionSort rankLe ((candidatePool u rows).map (scoreRow u))).take
      (min top_n ((candidatePool u rows).length : ℤ)).toNat

/-- DataFrame-level wrapper of `get_recommendations`: the source filters the
catalog, `.copy()`-s the result, and mutates only the copy, so the supplied
products frame comes back unchanged next to the scored candidates. -/
noncomputable def get_recommendations_df (u : Customer) (pdf : ProductsDF)
    (top_n : ℤ) : ProductsDF × List RecRow :=
  (pdf, get_recommendations u pdf.rows top_n)

/-- `check_price_match` (source lines 193–198): whether at least one catalog
product's price lies in the customer's unbuffered budget range. -/
def check_price_match (rows : List Product) (c : Customer) : Bool :=
  rows.any fun p =>
    decide (c.expected_price_low ≤ p.price) && decide (p.price ≤ c.expected_price_high)

/-- Pandas `Series.mean`: NaN (here `none`) on an empty series, otherwise
the arithmetic mean. -/
def seriesMean (l : List ℚ) : Option ℚ :=
  if l.isEmpty then none else some (l.sum / l.length)

/-- `np.mean(l) * 100 if l else 0` — the guard used for the four precision
metrics in the source (lines 238–241). -/
def meanPct (l : List ℚ) : ℚ :=
  if l.isEmpty then 0 else l.sum / l.length * 100

/-- One pass of the precision loop of `calculate_metrics` (source lines
209–233) for a single customer: `none` when the recommender returned
nothing (the customer is skipped), otherwise the four per-customer
contributions (precision@1 / precision@3, keyword / price). -/
noncomputable def customer_contrib (rows : List Product) (c : Customer) :
    Option (ℚ × ℚ × ℚ × ℚ) :=
  match get_recommendations c rows 3 with
  | [] => none
  | r0 :: rest =>
    let recs := r0 :: rest
    let keyword := c.favorite_keyword.toLower
    let top_1 : ℚ := if containsSub r0.2.1.title.toLower keyword then 1 else 0
    let top_3 : ℕ := (recs.filter fun r => containsSub r.2.1.title.toLower keyword).length
    let top_1_price : ℚ :=
      if c.expected_price_low ≤ r0.2.1.price ∧ r0.2.1.price ≤ c.expected_price_high then 1 else 0
    let price_matches : ℕ :=
      (recs.filter fun r =>
        decide (c.expected_price_low ≤ r.2.1.price) &&
        decide (r.2.1.price ≤ c.expected_price_high)).length
    some (top_1, (top_3 : ℚ) / (min 3 recs.length : ℕ),
          top_1_price, (price_matches : ℚ) / (min 3 recs.length : ℕ))

/-- `calculate_metrics` (source lines 187–242).  Returns the survey frame as
it stands after the call — the source assigns
`df_survey['price_match'] = df_survey.apply(check_price_match, axis=1)`
directly on the frame it was handed — together with the metrics report.
Category coverage and price accuracy are `Series.mean() * 100`
(`none`, i.e. NaN, on an empty survey); the precision metrics average the
per-customer contributions of the first 50 survey rows, skipping customers
for whom the recommender returned nothing. -/
noncomputable def calculate_metrics (survey : SurveyDF) (rows_products : List Product) :
    SurveyDF × MetricsReport :=
  let category_coverage :=
    (seriesMean (survey.rows.map fun c =>
      if c.preferred_category = "electronics" then (1 : ℚ) else 0)).map (· * 100)
  let pm := survey.rows.map (check_price_match rows_products)
  let price_accuracy :=
    (seriesMean (pm.map fun b => if b then (1 : ℚ) else 0)).map (· * 100)
  let contribs := (survey.rows.take 50).filterMap (customer_contrib rows_products)
  (⟨survey.rows, some pm⟩,
   { category_coverage := category_coverage
     price_accuracy := price_accuracy
     precision_1_keyword := meanPct (contribs.map fun q => q.1)
     precision_3_keyword := meanPct (contribs.map fun q => q.2.1)
     precision_1_price := meanPct (contribs.map fun q => q.2.2.1)
     precision_3_price := meanPct (contribs.map fun q => q.2.2.2) })

/-- The "Phone X" product of the spec's end-to-end example. -/
def phoneX : Product :=
  { product_id := "P1", title := "Phone X", price := 1000,
    category := "electronics", rating := 9/2, rating_count := 100 }

/-- The "Laptop Y" product of the spec's end-to-end example. -/
def laptopY : Product :=
  { product_id := "P2", title := "Laptop Y", price := 50000,
    category := "electronics", rating := 47/10, rating_count := 200 }

/-- The customer of the spec's end-to-end example: budget 900–1100,
keyword "phone". -/
def exampleCustomer : Customer :=
  { user_id := "USER_0001", name := "Rajesh Kumar", age := 30, city := "Mumbai",
    preferred_category := "electronics", expected_price_low := 900,
    expected_price_high := 1100, favorite_keyword := "phone" }

/-- A generic single customer used to instantiate universally quantified
theorems at concrete inputs. -/
def sampleCustomer : Customer :=
  { user_id := "USER_0002", name := "Priya Sharma", age := 25, city := "Delhi",
    preferred_category := "electronics", expected_price_low := 100,
    expected_price_high := 200, favorite_keyword := "charger" }

/-- A product priced far outside `sampleCustomer`'s relaxed window. -/
def outOfWindowProduct : Product :=
  { product_id := "P3", title := "Gaming Laptop", price := 90000,
    category := "electronics", rating := 4, rating_count := 0 }

/-- A product priced inside `sampleCustomer`'s relaxed window. -/
def inWindowProduct : Product :=
  { product_id := "P4", title := "USB Charger", price := 150,
    category := "electronics", rating := 4, rating_count := 0 }

/-! ### Helper lemmas about the embedded pipeline -/

theorem length_enumIdx (k : ℕ) (rows : List Product) :
    (enumIdx k rows).length = rows.length := by
  induction rows generalizing k with
  | nil => simp [enumIdx]
  | cons p ps ih => simp [enumIdx, ih]

theorem enumIdx_get (k : ℕ) (rows : List Product) :
    ∀ x ∈ enumIdx k rows, ∃ j, x.1 = k + j ∧ rows.get? j = some x.2 := by
  induction rows generalizing k with
  | nil => intro x hx; simp [enumIdx] at hx
  | cons p ps ih =>
    intro x hx
    simp only [enumIdx, List.mem_cons] at hx
    rcases hx with rfl | hx
    · exact ⟨0, by simp⟩
    · obtain ⟨j, hj1, hj2⟩ := ih (k + 1) x hx
      exact ⟨j + 1, by omega, by simpa using hj2⟩

theorem mem_of_mem_enumIdx {k : ℕ} {rows : List Product} {x : ℕ × Product}
    (hx : x ∈ enumIdx k rows) : x.2 ∈ rows := by
  obtain ⟨j, _, hj⟩ := enumIdx_get k rows x hx
  exact List.get?_mem hj

theorem mem_of_mem_candidatePool {u : Customer} {rows : List Product} {ip : ℕ × Product}
    (h : ip ∈ candidatePool u rows) : ip ∈ enumIdx 0 rows := by
  unfold candidatePool at h
  split at h
  · exact h
  · exact List.mem_of_mem_filter h

theorem mem_get_recommendations {u : Customer} {rows : List Product} {top_n : ℤ}
    {r : RecRow} (h : r ∈ get_recommendations u rows top_n) :
    ∃ ip ∈ candidatePool u rows, r = scoreRow u ip := by
  unfold get_recommendations at h
  split at h
  · simp at h
  · have h1 : r ∈ List.insertionSort rankLe ((candidatePool u rows).map (scoreRow u)) :=
      List.mem_of_mem_take h
    have h2 : r ∈ (candidatePool u rows).map (scoreRow u) :=
      (List.perm_insertionSort rankLe _).mem_iff.mp h1
    obtain ⟨ip, hip, hr⟩ := List.mem_map.mp h2
    exact ⟨ip, hip, hr.symm⟩

theorem get_recommendations_length (u : Customer) (rows : List Product) (top_n : ℤ)
    (h : rows.isEmpty = false) :
    (get_recommendations u rows top_n).length =
      (min top_n ((candidatePool u rows).length : ℤ)).toNat := by
  unfold get_recommendations
  rw [if_neg (by simp [h]), List.length_take, List.length_insertionSort, List.length_map]
  exact Nat.min_eq_left (Int.toNat_le.mpr (min_le_right _ _))

theorem get_recommendations_length_le (u : Customer) (rows : List Product) (top_n : ℤ) :
    (get_recommendations u rows top_n).length ≤ top_n.toNat := by
  by_cases h : rows.isEmpty
  · simp [get_recommendations, h]
  · rw [get_recommendations_length u rows top_n (by simpa using h)]
    exact Int.toNat_le_toNat (min_le_left _ _)

theorem get_recommendations_sorted (u : Customer) (rows : List Product) (top_n : ℤ) :
    List.Sorted rankLe (get_recommendations u rows top_n) := by
  unfold get_recommendations
  split
  · exact List.sorted_nil
  · exact List.Pairwise.sublist (List.take_sublist _ _)
      (List.sorted_insertionSort rankLe _)

theorem mean_bounds {l : List ℚ} (hne : l ≠ []) (hb : ∀ x ∈ l, 0 ≤ x ∧ x ≤ 1) :
    0 ≤ l.sum / l.length ∧ l.sum / l.length ≤ 1 := by
  have hlen : 0 < (l.length : ℚ) := by exact_mod_cast List.length_pos.mpr hne
  constructor
  · exact div_nonneg (List.sum_nonneg fun x hx => (hb x hx).1) hlen.le
  · rw [div_le_one hlen]
    calc l.sum ≤ l.length • (1 : ℚ) := List.sum_le_card_nsmul l 1 fun x hx => (hb x hx).2
    _ = (l.length : ℚ) := by simp

theorem meanPct_bounds (l : List ℚ) (hb : ∀ x ∈ l, 0 ≤ x ∧ x ≤ 1) :
    0 ≤ meanPct l ∧ meanPct l ≤ 100 := by
  unfold meanPct
  split
  · norm_num
  · next h =>
    have hne : l ≠ [] := by simpa using h
    obtain ⟨h0, h1⟩ := mean_bounds hne hb
    constructor <;> nlinarith

theorem customer_contrib_bounds {rows : List Product} {c : Customer}
    {q : ℚ × ℚ × ℚ × ℚ} (h : customer_contrib rows c = some q) :
    (0 ≤ q.1 ∧ q.1 ≤ 1) ∧ (0 ≤ q.2.1 ∧ q.2.1 ≤ 1) ∧
    (0 ≤ q.2.2.1 ∧ q.2.2.1 ≤ 1) ∧ (0 ≤ q.2.2.2 ∧ q.2.2.2 ≤ 1) := by
  unfold customer_contrib at h
  split at h
  · exact absurd h (by simp)
  · next r0 rest heq =>
    have hle3 : (r0 :: rest).length ≤ 3 := by
      have := get_recommendations_length_le c rows 3
      rw [heq] at this
      simpa using this
    have hposden : 0 < ((min 3 (r0 :: rest).length : ℕ) : ℚ) := by
      have : 1 ≤ min 3 (r0 :: rest).length :=
        le_min (by norm_num) (Nat.succ_le_succ (Nat.zero_le _))
      exact_mod_cast Nat.lt_of_lt_of_le Nat.zero_lt_one this
    have hmin : min 3 (r0 :: rest).length = (r0 :: rest).length := min_eq_right hle3
    have hratio : ∀ f : RecRow → Bool,
        0 ≤ (((r0 :: rest).filter f).length : ℚ) / ((min 3 (r0 :: rest).length : ℕ) : ℚ) ∧
        (((r0 :: rest).filter f).length : ℚ) / ((min 3 (r0 :: rest).length : ℕ) : ℚ) ≤ 1 := by
      intro f
      constructor
      · positivity
      · rw [div_le_one hposden]
        have : ((r0 :: rest).filter f).length ≤ min 3 (r0 :: rest).length := by
          rw [hmin]; exact List.length_filter_le f (r0 :: rest)
        exact_mod_cast this
    rw [Option.some_inj] at h
    subst h
    refine ⟨?_, hratio _, ?_, hratio _⟩
    · constructor <;> split_ifs <;> norm_num
    · constructor <;> split_ifs <;> norm_num

theorem seriesMean_of_ne_nil {l : List ℚ} (h : l ≠ []) :
    seriesMean l = some (l.sum / l.length) := by
  unfold seriesMean
  rw [if_neg fun hh => h (List.isEmpty_iff.mp hh)]

theorem mem_enumIdx_of_mem {rows : List Product} {p : Product} (hp : p ∈ rows) (k : ℕ) :
    ∃ i, (i, p) ∈ enumIdx k rows := by
  induction rows generalizing k with
  | nil => cases hp
  | cons q ps ih =>
    rcases List.mem_cons.mp hp with rfl | hp'
    · exact ⟨k, by simp [enumIdx]⟩
    · obtain ⟨i, hi⟩ := ih hp' (k + 1)
      exact ⟨i, by simp [enumIdx, hi]⟩

/-! ### Claim theorems -/

/-- C6: for budgets with `budget_high ≥ budget_low ≥ 0`, `calculate_score`
equals `rating * ln(1 + rating_count) - 2 * |price - mid| / mid` with
`mid = (budget_low + budget_high) / 2` whenever `mid > 0`; when `mid ≤ 0`
the guarded branch makes the price penalty 0 (no division is attempted) and
the score is the popularity term alone. -/
theorem C6_score_formula (price rating : ℚ) (rating_count : ℕ) (lo hi : ℚ)
    (h0 : 0 ≤ lo) (h1 : lo ≤ hi) :
    (0 < (lo + hi) / 2 →
      calculate_score price rating rating_count lo hi =
        (rating : ℝ) * Real.log (1 + (rating_count : ℝ)) -
          2 * |(price : ℝ) - ((lo : ℝ) + (hi : ℝ)) / 2| / (((lo : ℝ) + (hi : ℝ)) / 2)) ∧
    ((lo + hi) / 2 ≤ 0 →
      calculate_score price rating rating_count lo hi =
        (rating : ℝ) * Real.log (1 + (rating_count : ℝ))) := by
  simp only [calculate_score]
  constructor
  · intro hm
    rw [if_pos hm]
    push_cast
    ring
  · intro hm
    rw [if_neg (not_lt.mpr hm)]
    push_cast
    ring

/-- Witness for C6 at price 1000, rating 9/2, 100 ratings, budget
[900, 1100]: the budget hypotheses hold and the formula applies. -/
theorem C6_score_formula_witness :
    (0 : ℚ) ≤ 900 ∧ (900 : ℚ) ≤ 1100 ∧
    ((0 < ((900 : ℚ) + 1100) / 2 →
      calculate_score 1000 (9/2) 100 900 1100 =
        ((9/2 : ℚ) : ℝ) * Real.log (1 + ((100 : ℕ) : ℝ)) -
          2 * |((1000 : ℚ) : ℝ) - (((900 : ℚ) : ℝ) + ((1100 : ℚ) : ℝ)) / 2| /
            ((((900 : ℚ) : ℝ) + ((1100 : ℚ) : ℝ)) / 2)) ∧
     (((900 : ℚ) + 1100) / 2 ≤ 0 →
      calculate_score 1000 (9/2) 100 900 1100 =
        ((9/2 : ℚ) : ℝ) * Real.log (1 + ((100 : ℕ) : ℝ)))) :=
  ⟨by norm_num, by norm_num,
    C6_score_formula 1000 (9/2) 100 900 1100 (by norm_num) (by norm_num)⟩

/-- C8: holding price, rating and budget fixed with a positive rating, the
score strictly increases with the review count. -/
theorem C8_score_strictMono_in_count (price rating : ℚ) (c1 c2 : ℕ) (lo hi : ℚ)
    (hc : c1 < c2) (hr : 0 < rating) :
    calculate_score price rating c1 lo hi < calculate_score price rating c2 lo hi := by
  simp only [calculate_score]
  have hcast : (c1 : ℝ) < (c2 : ℝ) := by exact_mod_cast hc
  have hlog : Real.log (1 + (c1 : ℝ)) < Real.log (1 + (c2 : ℝ)) :=
    Real.log_lt_log (by positivity) (by linarith)
  have hmul : (rating : ℝ) * Real.log (1 + (c1 : ℝ)) <
      (rating : ℝ) * Real.log (1 + (c2 : ℝ)) :=
    mul_lt_mul_of_pos_left hlog (by exact_mod_cast hr)
  linarith

/-- Witness for C8: 0 < 1 reviews and positive rating 1; the score at 0
reviews is strictly below the score at 1 review. -/
theorem C8_score_strictMono_in_count_witness :
    (0 : ℕ) < 1 ∧ (0 : ℚ) < 1 ∧
      calculate_score 0 1 0 0 0 < calculate_score 0 1 1 0 0 :=
  ⟨by norm_num, by norm_num,
    C8_score_strictMono_in_count 0 1 0 1 0 0 (by norm_num) (by norm_num)⟩

/-- C2 counterexample: `calculate_metrics` assigns a `price_match` column to
the very survey frame it was handed (`df_survey['price_match'] = ...` with
no copy), so after the call the supplied customer collection is *not*
unchanged: starting from a frame without that column, the frame now has it. -/
theorem C2_counterexample :
    (calculate_metrics ⟨[sampleCustomer], none⟩ [inWindowProduct]).1 ≠
      (⟨[sampleCustomer], none⟩ : SurveyDF) := by
  intro h
  have h2 := congrArg SurveyDF.price_match h
  have h3 : (calculate_metrics ⟨[sampleCustomer], none⟩ [inWindowProduct]).1.price_match =
      some [check_price_match [inWindowProduct] sampleCustomer] := rfl
  rw [h3] at h2
  exact Option.noConfusion h2

/-- C2 (amended): `calculate_metrics` leaves the customer rows unchanged,
but it does write to the supplied frame: it sets the `price_match` column
to the per-customer budget-match flags.  The frame is otherwise unchanged. -/
theorem C2_price_match_assignment (s : SurveyDF) (catalog : List Product) :
    (calculate_metrics s catalog).1.rows = s.rows ∧
    (calculate_metrics s catalog).1.price_match =
      some (s.rows.map (check_price_match catalog)) :=
  ⟨rfl, rfl⟩

/-- C3 counterexample: with an empty customer cohort, `category_coverage`
is the mean of an empty series scaled by 100 — pandas NaN, modelled as
`none` — so it is not a number in [0, 100] as the claim requires of every
cohort. -/
theorem C3_counterexample :
    ¬ ∃ q : ℚ, (calculate_metrics ⟨[], none⟩ [phoneX]).2.category_coverage = some q ∧
      0 ≤ q ∧ q ≤ 100 := by
  rintro ⟨q, hq, -⟩
  have h : (calculate_metrics ⟨[], none⟩ [phoneX]).2.category_coverage = none := rfl
  rw [h] at hq
  exact Option.noConfusion hq

/-- C3 (amended): the four precision metrics of `calculate_metrics` always
lie in [0, 100], and all four are 0 on an empty cohort; `category_coverage`
and `price_accuracy` are numbers in [0, 100] whenever the cohort is
non-empty (on an empty cohort they are NaN, modelled as `none`). -/
theorem C3_metrics_ranges (s : SurveyDF) (catalog : List Product) :
    (0 ≤ (calculate_metrics s catalog).2.precision_1_keyword ∧
      (calculate_metrics s catalog).2.precision_1_keyword ≤ 100) ∧
    (0 ≤ (calculate_metrics s catalog).2.precision_3_keyword ∧
      (calculate_metrics s catalog).2.precision_3_keyword ≤ 100) ∧
    (0 ≤ (calculate_metrics s catalog).2.precision_1_price ∧
      (calculate_metrics s catalog).2.precision_1_price ≤ 100) ∧
    (0 ≤ (calculate_metrics s catalog).2.precision_3_price ∧
      (calculate_metrics s catalog).2.precision_3_price ≤ 100) ∧
    (s.rows ≠ [] → ∃ q : ℚ,
      (calculate_metrics s catalog).2.category_coverage = some q ∧ 0 ≤ q ∧ q ≤ 100) ∧
    (s.rows ≠ [] → ∃ q : ℚ,
      (calculate_metrics s catalog).2.price_accuracy = some q ∧ 0 ≤ q ∧ q ≤ 100) ∧
    (s.rows = [] →
      (calculate_metrics s catalog).2.precision_1_keyword = 0 ∧
      (calculate_metrics s catalog).2.precision_3_keyword = 0 ∧
      (calculate_metrics s catalog).2.precision_1_price = 0 ∧
      (calculate_metrics s catalog).2.precision_3_price = 0) := by
  have hcontrib : ∀ q ∈ (s.rows.take 50).filterMap (customer_contrib catalog),
      (0 ≤ q.1 ∧ q.1 ≤ 1) ∧ (0 ≤ q.2.1 ∧ q.2.1 ≤ 1) ∧
      (0 ≤ q.2.2.1 ∧ q.2.2.1 ≤ 1) ∧ (0 ≤ q.2.2.2 ∧ q.2.2.2 ≤ 1) := by
    intro q hq
    obtain ⟨c, _, hcq⟩ := List.mem_filterMap.mp hq
    exact customer_contrib_bounds hcq
  have e1 : (calculate_metrics s catalog).2.precision_1_keyword =
      meanPct (((s.rows.take 50).filterMap (customer_contrib catalog)).map fun q => q.1) := rfl
  have e2 : (calculate_metrics s catalog).2.precision_3_keyword =
      meanPct (((s.rows.take 50).filterMap (customer_contrib catalog)).map fun q => q.2.1) := rfl
  have e3 : (calculate_metrics s catalog).2.precision_1_price =
      meanPct (((s.rows.take 50).filterMap (customer_contrib catalog)).map fun q => q.2.2.1) := rfl
  have e4 : (calculate_metrics s catalog).2.precision_3_price =
      meanPct (((s.rows.take 50).filterMap (customer_contrib catalog)).map fun q => q.2.2.2) := rfl
  refine ⟨?_, ?_, ?_, ?_, ?_, ?_, ?_⟩
  · rw [e1]
    refine meanPct_bounds _ fun x hx => ?_
    obtain ⟨q, hq, rfl⟩ := List.mem_map.mp hx
    exact (hcontrib q hq).1
  · rw [e2]
    refine meanPct_bounds _ fun x hx => ?_
    obtain ⟨q, hq, rfl⟩ := List.mem_map.mp hx
    exact (hcontrib q hq).2.1
  · rw [e3]
    refine meanPct_bounds _ fun x hx => ?_
    obtain ⟨q, hq, rfl⟩ := List.mem_map.mp hx
    exact (hcontrib q hq).2.2.1
  · rw [e4]
    refine meanPct_bounds _ fun x hx => ?_
    obtain ⟨q, hq, rfl⟩ := List.mem_map.mp hx
    exact (hcontrib q hq).2.2.2
  · intro hne
    have hmap : (s.rows.map fun c =>
        if c.preferred_category = "electronics" then (1 : ℚ) else 0) ≠ [] := by
      simpa using hne
    have hbc : ∀ x ∈ s.rows.map fun c =>
        if c.preferred_category = "electronics" then (1 : ℚ) else 0, 0 ≤ x ∧ x ≤ 1 := by
      intro x hx
      obtain ⟨c, _, rfl⟩ := List.mem_map.mp hx
      split <;> norm_num
    obtain ⟨h0, h1⟩ := mean_bounds hmap hbc
    have ecov : (calculate_metrics s catalog).2.category_coverage =
        (seriesMean (s.rows.map fun c =>
          if c.preferred_category = "electronics" then (1 : ℚ) else 0)).map (· * 100) := rfl
    rw [ecov, seriesMean_of_ne_nil hmap]
    exact ⟨_, rfl, by nlinarith, by nlinarith⟩
  · intro hne
    have hmap : ((s.rows.map (check_price_match catalog)).map fun b =>
        if b then (1 : ℚ) else 0) ≠ [] := by
      simpa using hne
    have hbc : ∀ x ∈ (s.rows.map (check_price_match catalog)).map fun b =>
        if b then (1 : ℚ) else 0, 0 ≤ x ∧ x ≤ 1 := by
      intro x hx
      obtain ⟨b, _, rfl⟩ := List.mem_map.mp hx
      split <;> norm_num
    obtain ⟨h0, h1⟩ := mean_bounds hmap hbc
    have eacc : (calculate_metrics s catalog).2.price_accuracy =
        (seriesMean ((s.rows.map (check_price_match catalog)).map fun b =>
          if b then (1 : ℚ) else 0)).map (· * 100) := rfl
    rw [eacc, seriesMean_of_ne_nil hmap]
    exact ⟨_, rfl, by nlinarith, by nlinarith⟩
  · intro hnil
    rw [e1, e2, e3, e4, hnil]
    simp [meanPct]

/-- Witness for C3 at a one-customer cohort: the cohort is non-empty and
`category_coverage` is then a number in [0, 100]. -/
theorem C3_metrics_ranges_witness :
    (⟨[sampleCustomer], none⟩ : SurveyDF).rows ≠ [] ∧
    (∃ q : ℚ, (calculate_metrics ⟨[sampleCustomer], none⟩
        [inWindowProduct]).2.category_coverage = some q ∧ 0 ≤ q ∧ q ≤ 100) :=
  ⟨by simp,
    (C3_metrics_ranges ⟨[sampleCustomer], none⟩ [inWindowProduct]).2.2.2.2.1 (by simp)⟩

/-- Concrete evaluation of the spec's end-to-end example: the relaxed
window of `exampleCustomer` is [720, 1320], which keeps Phone X (price
1000) and drops Laptop Y (price 50000). -/
theorem example_windowFilter_eval :
    windowFilter exampleCustomer [phoneX, laptopY] = [(0, phoneX)] := by
  norm_num [windowFilter, enumIdx, buffer, exampleCustomer, phoneX, laptopY,
    List.filter_cons]

/-- Concrete evaluation of `get_recommendations` on the spec's end-to-end
example: only Phone X is returned. -/
theorem example_getRec_eval :
    (get_recommendations exampleCustomer [phoneX, laptopY] 2).map
      (fun r => r.2.1) = [phoneX] := by
  have hpool : candidatePool exampleCustomer [phoneX, laptopY] = [(0, phoneX)] := by
    unfold candidatePool
    rw [example_windowFilter_eval]
    rfl
  simp only [get_recommendations, hpool]
  rfl

/-- C1 counterexample: on the spec's end-to-end example the relaxed window
is [900·0.8, 1100·1.2] = [720, 1320], which excludes Laptop Y (price
50000), so `get_recommendations` does not return both items. -/
theorem C1_counterexample :
    ¬ ((get_recommendations exampleCustomer [phoneX, laptopY] 2).map
        (fun r => r.2.1) = [phoneX, laptopY]) := by
  intro h
  exact absurd (example_getRec_eval.symm.trans h) (by simp)

/-- C1 (amended): on the spec's example catalog and customer,
`recommend(customer, catalog, top_n = 2)` returns exactly one candidate,
Phone X; Laptop Y is removed by the relaxed price filter before ranking. -/
theorem C1_example_returns_phoneX_only :
    (get_recommendations exampleCustomer [phoneX, laptopY] 2).map
      (fun r => r.2.1) = [phoneX] :=
  example_getRec_eval

/-- C4: when the catalog is non-empty but no product's price falls in the
relaxed window, the candidate pool falls back to the entire catalog and the
recommender returns a non-empty sequence (for `top_n > 0`) whose candidates
are drawn from the catalog. -/
theorem C4_fallback_entire_catalog (u : Customer) (rows : List Product) (top_n : ℤ)
    (hne : rows ≠ [])
    (hout : ∀ p ∈ rows, ¬(u.expected_price_low * (1 - buffer) ≤ p.price ∧
      p.price ≤ u.expected_price_high * (1 + buffer)))
    (htop : 0 < top_n) :
    candidatePool u rows = enumIdx 0 rows ∧
    get_recommendations u rows top_n ≠ [] ∧
    ∀ r ∈ get_recommendations u rows top_n, r.2.1 ∈ rows := by
  have hfil : windowFilter u rows = [] := by
    unfold windowFilter
    rw [List.filter_eq_nil_iff]
    intro ip hip
    simp only [Bool.and_eq_true, decide_eq_true_eq, not_and]
    intro hc1 hc2
    exact hout ip.2 (mem_of_mem_enumIdx hip) ⟨hc1, hc2⟩
  have hpool : candidatePool u rows = enumIdx 0 rows := by
    unfold candidatePool
    rw [hfil]
    simp
  refine ⟨hpool, ?_, ?_⟩
  · have hlen := get_recommendations_length u rows top_n
      (by simp [List.isEmpty_iff, hne])
    rw [hpool, length_enumIdx] at hlen
    have h2 : (1 : ℤ) ≤ min top_n (rows.length : ℤ) :=
      le_min (by omega) (by exact_mod_cast List.length_pos.mpr hne)
    have h3 : 1 ≤ (min top_n (rows.length : ℤ)).toNat := by
      simpa using Int.toNat_le_toNat h2
    refine List.length_pos.mp ?_
    omega
  · intro r hr
    obtain ⟨ip, hip, rfl⟩ := mem_get_recommendations hr
    exact mem_of_mem_enumIdx (mem_of_mem_candidatePool hip)

/-- Witness for C4: a one-product catalog priced at 90000, far outside the
relaxed window [80, 240] of a customer with budget [100, 200]. -/
theorem C4_fallback_entire_catalog_witness :
    ([outOfWindowProduct] : List Product) ≠ [] ∧
    (∀ p ∈ ([outOfWindowProduct] : List Product),
      ¬(sampleCustomer.expected_price_low * (1 - buffer) ≤ p.price ∧
        p.price ≤ sampleCustomer.expected_price_high * (1 + buffer))) ∧
    (0 : ℤ) < 1 ∧
    (candidatePool sampleCustomer [outOfWindowProduct] = enumIdx 0 [outOfWindowProduct] ∧
     get_recommendations sampleCustomer [outOfWindowProduct] 1 ≠ [] ∧
     ∀ r ∈ get_recommendations sampleCustomer [outOfWindowProduct] 1,
       r.2.1 ∈ ([outOfWindowProduct] : List Product)) :=
  ⟨by simp,
   by
    intro p hp
    rw [List.mem_singleton] at hp
    subst hp
    norm_num [sampleCustomer, outOfWindowProduct, buffer],
   by norm_num,
   C4_fallback_entire_catalog sampleCustomer [outOfWindowProduct] 1
      (by simp)
      (by
        intro p hp
        rw [List.mem_singleton] at hp
        subst hp
        norm_num [sampleCustomer, outOfWindowProduct, buffer])
      (by norm_num)⟩

/-- C5: the recommender returns at most `top_n` candidates; every returned
candidate is a product of the supplied catalog; the sequence is ordered by
score descending; and candidates with equal scores appear in their original
catalog order (their recorded row indices are increasing). -/
theorem C5_ranking_contract (u : Customer) (rows : List Product) (top_n : ℤ) :
    (get_recommendations u rows top_n).length ≤ top_n.toNat ∧
    (∀ r ∈ get_recommendations u rows top_n, r.2.1 ∈ rows) ∧
    List.Pairwise (fun a b : RecRow => b.2.2 ≤ a.2.2)
      (get_recommendations u rows top_n) ∧
    List.Pairwise (fun a b : RecRow => a.2.2 = b.2.2 → a.1 ≤ b.1)
      (get_recommendations u rows top_n) := by
  refine ⟨get_recommendations_length_le u rows top_n, ?_, ?_, ?_⟩
  · intro r hr
    obtain ⟨ip, hip, rfl⟩ := mem_get_recommendations hr
    exact mem_of_mem_enumIdx (mem_of_mem_candidatePool hip)
  · refine (get_recommendations_sorted u rows top_n).imp fun hab => ?_
    rcases hab with hab | ⟨hab, -⟩
    · exact hab.le
    · exact hab.ge
  · refine (get_recommendations_sorted u rows top_n).imp fun hab heq => ?_
    rcases hab with hab | ⟨-, hab⟩
    · rw [heq] at hab
      exact absurd hab (lt_irrefl _)
    · exact hab

/-- Witness for C5 on a concrete one-product catalog with `top_n = 2`. -/
theorem C5_ranking_contract_witness :
    (get_recommendations sampleCustomer [inWindowProduct] 2).length ≤ (2 : ℤ).toNat ∧
    (∀ r ∈ get_recommendations sampleCustomer [inWindowProduct] 2,
      r.2.1 ∈ ([inWindowProduct] : List Product)) ∧
    List.Pairwise (fun a b : RecRow => b.2.2 ≤ a.2.2)
      (get_recommendations sampleCustomer [inWindowProduct] 2) ∧
    List.Pairwise (fun a b : RecRow => a.2.2 = b.2.2 → a.1 ≤ b.1)
      (get_recommendations sampleCustomer [inWindowProduct] 2) :=
  C5_ranking_contract sampleCustomer [inWindowProduct] 2

/-- C7: the recommender returns the empty sequence on an empty catalog and
whenever `top_n ≤ 0`, for every customer. -/
theorem C7_empty_cases (u : Customer) (rows : List Product) (top_n : ℤ) :
    (rows = [] → get_recommendations u rows top_n = []) ∧
    (top_n ≤ 0 → get_recommendations u rows top_n = []) := by
  constructor
  · intro h
    simp [get_recommendations, h]
  · intro h
    by_cases hr : rows.isEmpty
    · simp [get_recommendations, hr]
    · have hlen := get_recommendations_length u rows top_n (by simpa using hr)
      have hz : (min top_n ((candidatePool u rows).length : ℤ)).toNat = 0 :=
        Int.toNat_eq_zero.mpr (le_trans (min_le_left _ _) h)
      rw [hz] at hlen
      exact List.length_eq_zero.mp hlen

/-- Witness for C7: empty catalog with `top_n = 3`, and a one-product
catalog with `top_n = -1`. -/
theorem C7_empty_cases_witness :
    get_recommendations sampleCustomer [] 3 = [] ∧
    get_recommendations sampleCustomer [inWindowProduct] (-1) = [] :=
  ⟨(C7_empty_cases sampleCustomer [] 3).1 rfl,
   (C7_empty_cases sampleCustomer [inWindowProduct] (-1)).2 (by norm_num)⟩

/-- C9: `get_recommendations` leaves the supplied catalog frame unchanged —
the source copies the candidate rows before attaching the `score` column,
so no score column appears on the catalog — and every returned candidate is
a copy of the catalog row at its recorded index with the customer's score
attached. -/
theorem C9_catalog_unchanged (u : Customer) (pdf : ProductsDF) (top_n : ℤ) :
    (get_recommendations_df u pdf top_n).1 = pdf ∧
    ∀ r ∈ (get_recommendations_df u pdf top_n).2,
      pdf.rows.get? r.1 = some r.2.1 ∧
      r.2.2 = calculate_score r.2.1.price r.2.1.rating r.2.1.rating_count
        u.expected_price_low u.expected_price_high := by
  refine ⟨rfl, fun r hr => ?_⟩
  have hr' : r ∈ get_recommendations u pdf.rows top_n := hr
  obtain ⟨ip, hip, rfl⟩ := mem_get_recommendations hr'
  obtain ⟨j, hj1, hj2⟩ := enumIdx_get 0 pdf.rows ip (mem_of_mem_candidatePool hip)
  refine ⟨?_, rfl⟩
  simpa [scoreRow, hj1] using hj2

/-- Witness for C9: the products frame comes back unchanged on a concrete
catalog. -/
theorem C9_catalog_unchanged_witness :
    (get_recommendations_df sampleCustomer ⟨[inWindowProduct], none⟩ 3).1 =
      (⟨[inWindowProduct], none⟩ : ProductsDF) :=
  (C9_catalog_unchanged sampleCustomer ⟨[inWindowProduct], none⟩ 3).1

/-- C10: if at least one catalog product's price lies inside the relaxed
window, every candidate the recommender returns has a price inside that
window — the full-catalog fallback is never mixed into a non-empty filtered
pool. -/
theorem C10_no_fallback_mixing (u : Customer) (rows : List Product) (top_n : ℤ)
    (hin : ∃ p ∈ rows, u.expected_price_low * (1 - buffer) ≤ p.price ∧
      p.price ≤ u.expected_price_high * (1 + buffer)) :
    ∀ r ∈ get_recommendations u rows top_n,
      u.expected_price_low * (1 - buffer) ≤ r.2.1.price ∧
      r.2.1.price ≤ u.expected_price_high * (1 + buffer) := by
  obtain ⟨p, hp, hw⟩ := hin
  obtain ⟨i, hi⟩ := mem_enumIdx_of_mem hp 0
  have hmem : (i, p) ∈ windowFilter u rows := by
    refine List.mem_filter.mpr ⟨hi, ?_⟩
    simp only [Bool.and_eq_true, decide_eq_true_eq]
    exact ⟨hw.1, hw.2⟩
  have hfil : ¬ (windowFilter u rows).isEmpty = true := by
    intro hh
    rw [List.isEmpty_iff.mp hh] at hmem
    cases hmem
  intro r hr
  obtain ⟨ip, hip, rfl⟩ := mem_get_recommendations hr
  have hip2 : ip ∈ windowFilter u rows := by
    unfold candidatePool at hip
    rw [if_neg hfil] at hip
    exact hip
  have hcond := List.of_mem_filter hip2
  simp only [Bool.and_eq_true, decide_eq_true_eq] at hcond
  exact ⟨hcond.1, hcond.2⟩

/-- Witness for C10: `inWindowProduct` (price 150) lies in the window
[80, 240] of `sampleCustomer`, and every returned candidate does too. -/
theorem C10_no_fallback_mixing_witness :
    (∃ p ∈ ([inWindowProduct] : List Product),
      sampleCustomer.expected_price_low * (1 - buffer) ≤ p.price ∧
      p.price ≤ sampleCustomer.expected_price_high * (1 + buffer)) ∧
    (∀ r ∈ get_recommendations sampleCustomer [inWindowProduct] 3,
      sampleCustomer.expected_price_low * (1 - buffer) ≤ r.2.1.price ∧
      r.2.1.price ≤ sampleCustomer.expected_price_high * (1 + buffer)) :=
  ⟨⟨inWindowProduct, by simp, by norm_num [sampleCustomer, inWindowProduct, buffer]⟩,
   C10_no_fallback_mixing sampleCustomer [inWindowProduct] 3
     ⟨inWindowProduct, by simp, by norm_num [sampleCustomer, inWindowProduct, buffer]⟩⟩

end MarketIntel
